import Mathlib

/-!
Shallow embedding of the resilience layer of the xentz-agent backup agent:
the configuration synchronizer (internal/config: FetchFromServer, FetchAndCache,
LoadWithFallback) and the report delivery queue (internal/report/report.go:
truncateError, SendReport, checkSpoolSize, SpoolReport, DeleteSpooledReport,
LoadPendingReports, SendPendingReports).

Go strings and byte slices are modelled as lists of byte values (`Bytes`),
since the source manipulates them byte-wise (len, slicing, UTF-8 boundary
scans).  The filesystem (spool directory, cache file) is modelled as explicit
state passed through the operations.  HTTP traffic is modelled by an outcome
value describing what the transport returned; JSON decoding of a response
body is abstracted as the decoded value carried alongside the raw body, and
URL validation (internal/validation/url.go, which defers to net/url parsing)
is abstracted as its verdict.
-/

deriving instance DecidableEq for Except

/-- Go strings / byte slices as lists of byte values. -/
abbrev Bytes := List Nat

/-- Bytes of an ASCII string literal (all literals in the modelled code are ASCII). -/
def strBytes (s : String) : Bytes := s.data.map (fun c => c.toNat)

/-- Whether `p` is a prefix of `s` (byte-wise), as in Go's strings.HasPrefix. -/
def isPrefB : Bytes → Bytes → Bool
  | [], _ => true
  | _ :: _, [] => false
  | a :: as, b :: bs => a == b && isPrefB as bs

/-- Go strings.Contains s pat: `pat` occurs as a contiguous substring of `s`. -/
def goContains : Bytes → Bytes → Bool
  | [], pat => isPrefB pat []
  | s@(_ :: t), pat => isPrefB pat s || goContains t pat

/-- Go strings.HasSuffix s suf. -/
def hasSuffixB (s suf : Bytes) : Bool := isPrefB suf.reverse s.reverse

/-- Byte-wise lexicographic order on filenames, the order used by Go's
sort.Strings when SendPendingReports sorts the spool listing. -/
def lexLe : Bytes → Bytes → Bool
  | [], _ => true
  | _ :: _, [] => false
  | a :: as, b :: bs => a < b || (a == b && lexLe as bs)

/-- Decimal digit bytes of `n`, fuel-structured so the kernel can reduce it;
`digitsAux (n+1) n` equals Go's fmt %d rendering of a non-negative integer. -/
def digitsAux : Nat → Nat → Bytes
  | 0, _ => []
  | f + 1, n => if n < 10 then [48 + n] else digitsAux f (n / 10) ++ [48 + n % 10]

/-- Decimal rendering of `n` as ASCII bytes (Go fmt %d for n ≥ 0). -/
def natDigitBytes (n : Nat) : Bytes := digitsAux (n + 1) n

/-- ASCII whitespace, the bytes trimmed by strings.TrimSpace on ASCII data.
(Go also trims non-ASCII Unicode spaces; that wider set never changes the
bounds proved below and the modelled bodies are byte sequences.) -/
def isSpaceByte (b : Nat) : Bool :=
  b == 32 || b == 9 || b == 10 || b == 13 || b == 11 || b == 12

/-- Go strings.TrimSpace restricted to ASCII whitespace. -/
def trimSpaceB (s : Bytes) : Bytes :=
  ((s.dropWhile isSpaceByte).reverse.dropWhile isSpaceByte).reverse

/-- Shared non-200 body sanitizer (report.go lines 110-119 and the identical
block in FetchFromServer): take at most 512 bytes (io.CopyN), TrimSpace,
replace every newline and carriage return by a space, and cap at 256 bytes
followed by a literal ellipsis. -/
def limitBody (body : Bytes) : Bytes :=
  let e0 := trimSpaceB (body.take 512)
  let e1 := e0.map (fun b => if b == 10 then 32 else b)
  let e2 := e1.map (fun b => if b == 13 then 32 else b)
  if e2.length > 256 then e2.take 256 ++ strBytes "..." else e2

/-- Maximum error message length in bytes (report.go maxErrorLength). -/
def maxErrorLength : Nat := 4096

/-- report.go truncateError: if the message exceeds 4096 bytes, cut at 4096
and then scan backwards for the last byte that is not a UTF-8 continuation
byte (b & 0xC0 ≠ 0x80), returning the slice up to AND INCLUDING that byte
(`truncated[:i+1]` in the source); if every byte is a continuation byte the
4096-byte cut is returned as is. -/
def truncateError (errMsg : Bytes) : Bytes :=
  if errMsg.length ≤ maxErrorLength then errMsg
  else
    let truncated := errMsg.take maxErrorLength
    let r := truncated.reverse.dropWhile (fun b => b &&& 0xC0 == 0x80)
    if r.isEmpty then truncated else r.reverse

/-- Whether a byte is a UTF-8 continuation byte. -/
def contByte (b : Nat) : Bool := b &&& 0xC0 == 0x80

/-- UTF-8 structural validity as a byte automaton: the first argument is the
number of continuation bytes still expected.  A lead byte announces 1-3
continuation bytes; a sequence ending while continuations are expected (a
dangling lead byte) is invalid.  Overlong/surrogate fine points are
irrelevant to the sequences considered here. -/
def utf8ValidFrom : Nat → Bytes → Bool
  | 0, [] => true
  | _ + 1, [] => false
  | 0, b :: t =>
    if b < 0x80 then utf8ValidFrom 0 t
    else if b < 0xC2 then false
    else if b < 0xE0 then utf8ValidFrom 1 t
    else if b < 0xF0 then utf8ValidFrom 2 t
    else if b < 0xF5 then utf8ValidFrom 3 t
    else false
  | k + 1, b :: t => contByte b && utf8ValidFrom k t

/-- UTF-8 well-formedness of a whole byte sequence. -/
def utf8Valid (l : Bytes) : Bool := utf8ValidFrom 0 l

example : truncateError (strBytes "ok") = strBytes "ok" := by decide
example : utf8Valid [195, 169] = true := by decide
example : utf8Valid [195] = false := by decide
example : goContains (strBytes "abcdef") (strBytes "cde") = true := by decide
example : goContains (strBytes "abcdef") (strBytes "ced") = false := by decide
example : hasSuffixB (strBytes "a.json") (strBytes ".json") = true := by decide
example : natDigitBytes 500 = strBytes "500" := by decide
example : limitBody (strBytes "  a\nb  ") = strBytes "a b" := by decide

/-- RunOutcome (report.go Report): the structured result of one backup or
retention run.  String fields are byte sequences, numeric fields int64. -/
structure Report where
  deviceID : Bytes
  job : Bytes
  startedAt : Bytes
  finishedAt : Bytes
  status : Bytes
  durationMS : Int
  filesTotal : Int
  bytesTotal : Int
  dataAddedBytes : Int
  snapshotID : Bytes
  error : Bytes
deriving DecidableEq, Repr

/-- One entry of the spool directory as seen by os.ReadDir: its name, whether
it is a subdirectory, its byte size, and the result of reading and
JSON-decoding it (`none` models both an unreadable file and a body that fails
to parse as a Report — the source treats the two identically). -/
structure DirEntry where
  name : Bytes
  isDir : Bool
  size : Nat
  content : Option Report
deriving DecidableEq, Repr

/-- Aggregate byte size of the spool directory (the loop of checkSpoolSize,
which sums the size of every directory entry). -/
def spoolTotalSize (dir : List DirEntry) : Nat :=
  (dir.map DirEntry.size).sum

/-- Hard ceiling on the spool's aggregate size (report.go maxSpoolSize,
100 * 1024 * 1024 bytes). -/
def maxSpoolSize : Nat := 100 * 1024 * 1024

/-- report.go checkSpoolSize: error iff the aggregate size of the existing
entries already exceeds the ceiling (the size of the file about to be
written is not considered). -/
def checkSpoolSize (dir : List DirEntry) : Option Bytes :=
  if spoolTotalSize dir > maxSpoolSize then
    some (strBytes "spool directory too large: " ++ natDigitBytes (spoolTotalSize dir)
      ++ strBytes " bytes (max " ++ natDigitBytes maxSpoolSize ++ strBytes " bytes)")
  else none

/-- Fuel-structured worker for replaceAllB (kernel-reducible). -/
def replAux (pat rep : Bytes) : Nat → Bytes → Bytes
  | 0, s => s
  | fuel + 1, s =>
    match s with
    | [] => []
    | b :: t =>
      if isPrefB pat s then rep ++ replAux pat rep fuel (s.drop pat.length)
      else b :: replAux pat rep fuel t

/-- Go strings.ReplaceAll for a non-empty pattern: replace non-overlapping
occurrences left to right. -/
def replaceAllB (s pat rep : Bytes) : Bytes := replAux pat rep s.length s

/-- The sanitize closure of SpoolReport: replace path separators, "..", and
NUL by underscores, then cap at 50 bytes.  (filepath.Separator is "/" on the
modelled platform, so that ReplaceAll coincides with the first one.) -/
def sanitizeB (s : Bytes) : Bytes :=
  let s1 := replaceAllB s (strBytes "/") (strBytes "_")
  let s2 := replaceAllB s1 (strBytes "\\") (strBytes "_")
  let s3 := replaceAllB s2 (strBytes "..") (strBytes "_")
  let s4 := replaceAllB s3 (strBytes "/") (strBytes "_")
  let s5 := replaceAllB s4 [0] (strBytes "_")
  if s5.length > 50 then s5.take 50 else s5

/-- Spool filename built by SpoolReport: unixSeconds-job-status.json with the
job and status components sanitized. -/
def spoolFilename (now : Nat) (job status : Bytes) : Bytes :=
  natDigitBytes now ++ strBytes "-" ++ sanitizeB job ++ strBytes "-" ++ sanitizeB status
    ++ strBytes ".json"

/-- report.go SpoolReport: ensure the directory exists, run checkSpoolSize,
truncate the report's error text, build the sanitized filename and write the
marshalled report.  `jsonData` stands for json.MarshalIndent of the truncated
report (JSON rendering itself is not re-implemented); `now` is
time.Now().Unix().  Returns the directory after the call together with the
error, if any; on error nothing is written. -/
def SpoolReport (dir : List DirEntry) (report : Report) (jsonData : Bytes) (now : Nat) :
    List DirEntry × Option Bytes :=
  match checkSpoolSize dir with
  | some e => (dir, some (strBytes "spool size check failed: " ++ e))
  | none =>
    let r := { report with error := truncateError report.error }
    let filename := spoolFilename now report.job report.status
    (dir ++ [⟨filename, false, jsonData.length, some r⟩], none)

/-- report.go DeleteSpooledReport: reject any filename containing a slash, a
backslash or "..", or that is absolute (filepath.IsAbs: leading slash), or
that does not end in ".json"; otherwise remove the file.  The symlink
containment double-check of the source resolves to the identity in this model
(the modelled directory contains no symlinks), so it never rejects a name
that passed the checks above.  Returns the directory after the call and the
error, if any; on error nothing is removed. -/
def DeleteSpooledReport (dir : List DirEntry) (filename : Bytes) :
    List DirEntry × Option Bytes :=
  if goContains filename (strBytes "/") || goContains filename (strBytes "\\")
      || goContains filename (strBytes "..") || isPrefB (strBytes "/") filename then
    (dir, some (strBytes "invalid filename: " ++ filename))
  else if !hasSuffixB filename (strBytes ".json") then
    (dir, some (strBytes "invalid filename: must be .json file"))
  else if dir.any (fun e => e.name == filename) then
    (dir.eraseP (fun e => e.name == filename), none)
  else
    (dir, some (strBytes "delete spool file: no such file"))

/-- Reading and parsing one spool file (os.ReadFile + json.Unmarshal) from
the modelled directory. -/
def readSpool (dir : List DirEntry) (filename : Bytes) : Option Report :=
  match dir.find? (fun e => e.name == filename) with
  | some e => if e.isDir then none else e.content
  | none => none

/-- The relation used by sort.Strings on the filename list. -/
def lexRel (a b : Bytes) : Prop := lexLe a b = true

instance : DecidableRel lexRel := fun a b => inferInstanceAs (Decidable (lexLe a b = true))

/-- The listing phase of LoadPendingReports: non-directory entries whose name
ends in ".json", sorted ascending by filename. -/
def listSpoolNames (dir : List DirEntry) : List Bytes :=
  List.insertionSort lexRel
    ((dir.filter (fun e => !e.isDir && hasSuffixB e.name (strBytes ".json"))).map DirEntry.name)

/-- The loading loop of LoadPendingReports: read and parse each filename in
order, skipping (with a logged warning) any that cannot be read or parsed,
appending to the reports and filenames slices in lockstep. -/
def loadLoop (dir : List DirEntry) : List Bytes → List Report × List Bytes
  | [] => ([], [])
  | fn :: rest =>
    let acc := loadLoop dir rest
    match readSpool dir fn with
    | some r => (r :: acc.1, fn :: acc.2)
    | none => acc

/-- report.go LoadPendingReports: list the .json spool entries sorted by
filename (oldest first), keep the first maxCount, then load each, skipping
unreadable or unparseable files. -/
def LoadPendingReports (dir : List DirEntry) (maxCount : Nat) : List Report × List Bytes :=
  loadLoop dir ((listSpoolNames dir).take maxCount)

/-- The send loop of SendPendingReports.  `outcome i` abstracts whether the
i-th SendReport call returned nil (HTTP 200); on success the spool entry is
deleted (a delete failure is logged and the loop continues), on failure the
entry is left for the next invocation.  The returned log lists, in order,
each attempted filename with its send outcome. -/
def drainLoop (outcome : Nat → Bool) : Nat → List (Report × Bytes) → List DirEntry →
    List DirEntry × List (Bytes × Bool)
  | _, [], dir => (dir, [])
  | i, (_, fn) :: rest, dir =>
    if outcome i then
      let dir1 := (DeleteSpooledReport dir fn).1
      let acc := drainLoop outcome (i + 1) rest dir1
      (acc.1, (fn, true) :: acc.2)
    else
      let acc := drainLoop outcome (i + 1) rest dir
      (acc.1, (fn, false) :: acc.2)

/-- report.go SendPendingReports: nothing happens without a server URL and
API key; otherwise load at most maxCount pending reports and run the send
loop (the 100ms inter-report sleep is a pure delay and is not modelled). -/
def SendPendingReports (serverURL deviceAPIKey : Bytes) (dir : List DirEntry)
    (outcome : Nat → Bool) (maxCount : Nat) : List DirEntry × List (Bytes × Bool) :=
  if serverURL = [] || deviceAPIKey = [] then (dir, [])
  else
    let loaded := LoadPendingReports dir maxCount
    drainLoop outcome 0 (loaded.1.zip loaded.2) dir

/-- Message of the failure SendReport produces for a non-200 response
(report.go lines 109-120). -/
def sendFailMsg (status : Nat) (body : Bytes) : Bytes :=
  strBytes "report failed (status " ++ natDigitBytes status ++ strBytes "): " ++ limitBody body

/-- Policy / Config (internal/config).  The snapshot of config.go in the
repository lacks the Enabled field, but part_002 (FetchFromServer and
LoadWithFallback, same package) dereferences cfg.Enabled as a *bool, and the
spec describes it as an optional tri-state flag, so it is modelled as
Option Bool.  Only the fields the modelled operations read are kept; the
schedule, retention and enrollment fields are carried by no claim. -/
structure Config where
  enabled : Option Bool
  include' : List Bytes
  exclude' : List Bytes
  resticRepository : Bytes
deriving DecidableEq, Repr

/-- What the HTTP transport returned for one request: either a client.Do
error carrying its message, or a response with a status code and body.
`decoded` abstracts json.Decode of the body into a Config (only consulted on
a 200 response; the error side carries the decoder's message). -/
inductive HttpOutcome where
  | transportError (msg : Bytes)
  | response (status : Nat) (body : Bytes) (decoded : Except Bytes Config)
deriving Repr

/-- The request built by FetchFromServer (part_002 lines 30-38). -/
structure HttpRequest where
  method : Bytes
  url : Bytes
  headers : List (Bytes × Bytes)
deriving DecidableEq, Repr

/-- PATH of the policy fetch as the source builds it: serverURL +
"/control/v1/config" (nginx proxies /control/* to the control plane), with
the bearer and accept headers. -/
def configRequest (serverURL deviceAPIKey : Bytes) : HttpRequest :=
  { method := strBytes "GET"
    url := serverURL ++ strBytes "/control/v1/config"
    headers := [(strBytes "Authorization", strBytes "Bearer " ++ deviceAPIKey),
                (strBytes "Accept", strBytes "application/json")] }

/-- Go's validatePath closure in FetchFromServer: length 1..4096 bytes and no
NUL byte. -/
def validatePathB (p : Bytes) : Option Bytes :=
  if p.length = 0 || p.length > 4096 then some (strBytes "path length invalid")
  else if goContains p [0] then some (strBytes "path contains null byte")
  else none

/-- First failing path of a list, with its index (the loops over Include and
Exclude in FetchFromServer report the first offending index). -/
def firstBadPath : Nat → List Bytes → Option (Nat × Bytes)
  | _, [] => none
  | i, p :: rest =>
    match validatePathB p with
    | some e => some (i, e)
    | none => firstBadPath (i + 1) rest

/-- part_002 FetchFromServer: reject empty inputs, validate the URL (the
verdict of validation.ValidateServerURL is `urlErr`), issue the GET, classify
the response (401/403 authentication failure, other non-200 fetch failure
with the sanitized body snippet), decode, then validate: kill-switch first
(enabled == false), then required fields, then bounds. -/
def FetchFromServer (serverURL deviceAPIKey : Bytes) (urlErr : Option Bytes)
    (out : HttpOutcome) : Except Bytes Config :=
  if serverURL = [] then .error (strBytes "server URL is required")
  else if deviceAPIKey = [] then .error (strBytes "device API key is required")
  else
    match urlErr with
    | some e => .error (strBytes "invalid server URL: " ++ e)
    | none =>
      match out with
      | .transportError m => .error (strBytes "config fetch failed: " ++ m)
      | .response status body decoded =>
        if status = 401 || status = 403 then
          .error (strBytes "authentication failed (status " ++ natDigitBytes status
            ++ strBytes "): invalid or revoked device API key")
        else if status ≠ 200 then
          .error (strBytes "config fetch failed (status " ++ natDigitBytes status
            ++ strBytes "): " ++ limitBody body)
        else
          match decoded with
          | .error m => .error (strBytes "decode config response: " ++ m)
          | .ok cfg =>
            if cfg.enabled = some false then
              .error (strBytes "device is disabled by server (kill-switch activated)")
            else if cfg.include' = [] then
              .error (strBytes "server config missing required field: include")
            else if cfg.resticRepository = [] then
              .error (strBytes "server config missing required field: restic.repository")
            else if cfg.include'.length > 1000 then
              .error (strBytes "too many include paths (max 1000)")
            else if cfg.exclude'.length > 1000 then
              .error (strBytes "too many exclude paths (max 1000)")
            else
              match firstBadPath 0 cfg.include' with
              | some (i, e) => .error (strBytes "invalid include path at index "
                  ++ natDigitBytes i ++ strBytes ": " ++ e)
              | none =>
                match firstBadPath 0 cfg.exclude' with
                | some (i, e) => .error (strBytes "invalid exclude path at index "
                    ++ natDigitBytes i ++ strBytes ": " ++ e)
                | none => .ok cfg

/-- Content of the cache file as ReadCached reports it: an error message
(file missing or unparseable) or the parsed Config. -/
abbrev CacheState := Except Bytes Config

/-- part_002 FetchAndCache: on fetch success, WriteCached best-effort
(`writeOk` abstracts whether the write succeeded; a failure is only logged);
on fetch failure the cache is untouched. -/
def FetchAndCache (serverURL deviceAPIKey : Bytes) (urlErr : Option Bytes)
    (out : HttpOutcome) (writeOk : Bool) (cache : CacheState) :
    Except Bytes Config × CacheState :=
  match FetchFromServer serverURL deviceAPIKey urlErr out with
  | .error e => (.error e, cache)
  | .ok cfg => (.ok cfg, if writeOk then .ok cfg else cache)

/-- Which way LoadWithFallback produced its result: a fresh fetch, the cached
config (the source logs a degraded-mode warning on this path), or a fatal
error. -/
inductive LoadOutcome where
  | fresh (cfg : Config)
  | cached (cfg : Config)
  | failed (msg : Bytes)
deriving DecidableEq, Repr

/-- part_002 LoadWithFallback: fetch-and-cache; on failure route on the error
TEXT — if it contains "device is disabled" or "kill-switch" fail fatally
without touching the cache, likewise for "authentication failed" /
"invalid or revoked"; otherwise read the cache, combine errors if that fails,
re-apply the kill-switch check to the cached config, and otherwise return the
cached config.  Returns the outcome together with the cache state after the
call. -/
def LoadWithFallback (serverURL deviceAPIKey : Bytes) (urlErr : Option Bytes)
    (out : HttpOutcome) (writeOk : Bool) (cache : CacheState) :
    LoadOutcome × CacheState :=
  match FetchAndCache serverURL deviceAPIKey urlErr out writeOk cache with
  | (.ok cfg, cache1) => (.fresh cfg, cache1)
  | (.error err, cache1) =>
    if goContains err (strBytes "device is disabled") || goContains err (strBytes "kill-switch") then
      (.failed (strBytes "device is disabled by server: " ++ err), cache1)
    else if goContains err (strBytes "authentication failed")
        || goContains err (strBytes "invalid or revoked") then
      (.failed (strBytes "authentication failed (API key may be revoked): " ++ err), cache1)
    else
      match cache1 with
      | .error cacheErr =>
        (.failed (strBytes "config fetch failed and no cached config available: " ++ err
          ++ strBytes " (cache error: " ++ cacheErr ++ strBytes ")"), cache1)
      | .ok cachedCfg =>
        if cachedCfg.enabled = some false then
          (.failed (strBytes "device is disabled (cached config shows enabled=false)"), cache1)
        else
          (.cached cachedCfg, cache1)

lemma isPrefB_append (p t : Bytes) : isPrefB p (p ++ t) = true := by
  induction p with
  | nil => rfl
  | cons a as ih => simp [isPrefB, ih]

lemma goContains_of_isPrefB {s pat : Bytes} (h : isPrefB pat s = true) :
    goContains s pat = true := by
  cases s with
  | nil => exact h
  | cons b t => simp [goContains, h]

lemma goContains_append_self (p t : Bytes) : goContains (p ++ t) p = true :=
  goContains_of_isPrefB (isPrefB_append p t)

/-- Error message FetchFromServer produces when a 200 response decodes to a
config with enabled == false (the kill-switch branch). -/
lemma fetch_disabled_eq (su k body : Bytes) (cfg : Config)
    (hsu : su ≠ []) (hk : k ≠ []) (hcfg : cfg.enabled = some false) :
    FetchFromServer su k none (.response 200 body (.ok cfg))
      = .error (strBytes "device is disabled by server (kill-switch activated)") := by
  simp only [FetchFromServer, if_neg hsu, if_neg hk]
  simp [hcfg]

/-- Error message FetchFromServer produces for a 401 or 403 response. -/
lemma fetch_auth_eq (su k body : Bytes) (dec : Except Bytes Config) (s : Nat)
    (hsu : su ≠ []) (hk : k ≠ []) (hs : s = 401 ∨ s = 403) :
    FetchFromServer su k none (.response s body dec)
      = .error (strBytes "authentication failed (status " ++ natDigitBytes s
          ++ strBytes "): invalid or revoked device API key") := by
  simp only [FetchFromServer, if_neg hsu, if_neg hk]
  rcases hs with rfl | rfl <;> simp

/-- When the fetch fails, LoadWithFallback routes purely on the error text
and the cache. -/
lemma load_route (su k : Bytes) (urlErr : Option Bytes) (out : HttpOutcome)
    (writeOk : Bool) (cache : CacheState) (err : Bytes)
    (hf : FetchFromServer su k urlErr out = .error err) :
    LoadWithFallback su k urlErr out writeOk cache =
      if goContains err (strBytes "device is disabled") || goContains err (strBytes "kill-switch") then
        (.failed (strBytes "device is disabled by server: " ++ err), cache)
      else if goContains err (strBytes "authentication failed")
          || goContains err (strBytes "invalid or revoked") then
        (.failed (strBytes "authentication failed (API key may be revoked): " ++ err), cache)
      else
        match cache with
        | .error cacheErr =>
          (.failed (strBytes "config fetch failed and no cached config available: " ++ err
            ++ strBytes " (cache error: " ++ cacheErr ++ strBytes ")"), cache)
        | .ok cachedCfg =>
          if cachedCfg.enabled = some false then
            (.failed (strBytes "device is disabled (cached config shows enabled=false)"), cache)
          else
            (.cached cachedCfg, cache) := by
  simp only [LoadWithFallback, FetchAndCache, hf]

/-- Valid enabled demo policy used by concrete witnesses. -/
def cfgEnabledW : Config :=
  ⟨some true, [strBytes "/home/user"], [strBytes "*.tmp"], strBytes "rest:https://repo.example/r1"⟩

/-- Disabled demo policy (enabled flag present and false). -/
def cfgDisabledW : Config :=
  ⟨some false, [strBytes "/home/user"], [strBytes "*.tmp"], strBytes "rest:https://repo.example/r1"⟩

/-- C1: a policy with enabled=false makes loadWithFallback fail with the
device-disabled condition, whether it is the freshly fetched policy (first
conclusion: fatal for every cache state, cache left untouched, so the fresh
disabled policy is never written) or the cached policy read during fallback
(second conclusion, for any fetch failure that is routed to the fallback
path); the cache never overrides the disabled verdict. -/
theorem C1_killswitch_no_fallback
    (su k body : Bytes) (cfg : Config) (writeOk : Bool) (cache : CacheState)
    (su2 k2 : Bytes) (urlErr2 : Option Bytes) (out2 : HttpOutcome) (writeOk2 : Bool)
    (err2 : Bytes) (cc : Config)
    (hsu : su ≠ []) (hk : k ≠ []) (hcfg : cfg.enabled = some false)
    (hf2 : FetchFromServer su2 k2 urlErr2 out2 = .error err2)
    (hm1 : goContains err2 (strBytes "device is disabled") = false)
    (hm2 : goContains err2 (strBytes "kill-switch") = false)
    (hm3 : goContains err2 (strBytes "authentication failed") = false)
    (hm4 : goContains err2 (strBytes "invalid or revoked") = false)
    (hcc : cc.enabled = some false) :
    LoadWithFallback su k none (.response 200 body (.ok cfg)) writeOk cache
      = (.failed (strBytes "device is disabled by server: "
          ++ strBytes "device is disabled by server (kill-switch activated)"), cache)
    ∧ LoadWithFallback su2 k2 urlErr2 out2 writeOk2 (.ok cc)
      = (.failed (strBytes "device is disabled (cached config shows enabled=false)"), .ok cc) := by
  constructor
  · rw [load_route su k none (.response 200 body (.ok cfg)) writeOk cache _
      (fetch_disabled_eq su k body cfg hsu hk hcfg)]
    have h1 : (goContains (strBytes "device is disabled by server (kill-switch activated)")
        (strBytes "device is disabled")
        || goContains (strBytes "device is disabled by server (kill-switch activated)")
        (strBytes "kill-switch")) = true := by decide
    simp [h1]
  · rw [load_route su2 k2 urlErr2 out2 writeOk2 (.ok cc) err2 hf2]
    simp [hm1, hm2, hm3, hm4, hcc]

/-- Witness for C1 at concrete inputs: both hypothesis sets hold and both
conclusions evaluate as the theorem states. -/
theorem C1_killswitch_no_fallback_witness :
    (cfgDisabledW.enabled = some false
      ∧ FetchFromServer (strBytes "https://s.example") (strBytes "key7") none
          (.transportError (strBytes "dial tcp: i/o timeout"))
        = .error (strBytes "config fetch failed: dial tcp: i/o timeout"))
    ∧ LoadWithFallback (strBytes "https://s.example") (strBytes "key7") none
        (.response 200 (strBytes "body") (.ok cfgDisabledW)) true (.ok cfgEnabledW)
      = (.failed (strBytes "device is disabled by server: "
          ++ strBytes "device is disabled by server (kill-switch activated)"), .ok cfgEnabledW)
    ∧ LoadWithFallback (strBytes "https://s.example") (strBytes "key7") none
        (.transportError (strBytes "dial tcp: i/o timeout")) true (.ok cfgDisabledW)
      = (.failed (strBytes "device is disabled (cached config shows enabled=false)"),
          .ok cfgDisabledW) :=
  ⟨⟨by decide, by decide⟩,
    (C1_killswitch_no_fallback (strBytes "https://s.example") (strBytes "key7")
      (strBytes "body") cfgDisabledW true (.ok cfgEnabledW)
      (strBytes "https://s.example") (strBytes "key7") none
      (.transportError (strBytes "dial tcp: i/o timeout")) true
      (strBytes "config fetch failed: dial tcp: i/o timeout") cfgDisabledW
      (by decide) (by decide) (by decide) (by decide) (by decide) (by decide)
      (by decide) (by decide) (by decide)).1,
    (C1_killswitch_no_fallback (strBytes "https://s.example") (strBytes "key7")
      (strBytes "body") cfgDisabledW true (.ok cfgEnabledW)
      (strBytes "https://s.example") (strBytes "key7") none
      (.transportError (strBytes "dial tcp: i/o timeout")) true
      (strBytes "config fetch failed: dial tcp: i/o timeout") cfgDisabledW
      (by decide) (by decide) (by decide) (by decide) (by decide) (by decide)
      (by decide) (by decide) (by decide)).2⟩

/-- C2: a 401 or 403 on the policy fetch makes loadWithFallback fail with
the fatal auth-revoked error; the result does not depend on the cache and
the cache is left untouched (never read to override the verdict). -/
theorem C2_auth_revoked_no_fallback
    (su k body : Bytes) (dec : Except Bytes Config) (s : Nat)
    (writeOk : Bool) (cache cache2 : CacheState)
    (hsu : su ≠ []) (hk : k ≠ []) (hs : s = 401 ∨ s = 403) :
    LoadWithFallback su k none (.response s body dec) writeOk cache
      = (.failed (strBytes "authentication failed (API key may be revoked): "
          ++ (strBytes "authentication failed (status " ++ natDigitBytes s
            ++ strBytes "): invalid or revoked device API key")), cache)
    ∧ (LoadWithFallback su k none (.response s body dec) writeOk cache).1
      = (LoadWithFallback su k none (.response s body dec) writeOk cache2).1 := by
  have key : ∀ c : CacheState,
      LoadWithFallback su k none (.response s body dec) writeOk c
        = (.failed (strBytes "authentication failed (API key may be revoked): "
            ++ (strBytes "authentication failed (status " ++ natDigitBytes s
              ++ strBytes "): invalid or revoked device API key")), c) := by
    intro c
    rw [load_route su k none (.response s body dec) writeOk c _
      (fetch_auth_eq su k body dec s hsu hk hs)]
    rcases hs with rfl | rfl
    · have hd : (goContains (strBytes "authentication failed (status "
          ++ natDigitBytes 401 ++ strBytes "): invalid or revoked device API key")
          (strBytes "device is disabled")
          || goContains (strBytes "authentication failed (status "
          ++ natDigitBytes 401 ++ strBytes "): invalid or revoked device API key")
          (strBytes "kill-switch")) = false := by decide
      have ha : (goContains (strBytes "authentication failed (status "
          ++ natDigitBytes 401 ++ strBytes "): invalid or revoked device API key")
          (strBytes "authentication failed")
          || goContains (strBytes "authentication failed (status "
          ++ natDigitBytes 401 ++ strBytes "): invalid or revoked device API key")
          (strBytes "invalid or revoked")) = true := by decide
      rw [hd, ha]
      simp
    · have hd : (goContains (strBytes "authentication failed (status "
          ++ natDigitBytes 403 ++ strBytes "): invalid or revoked device API key")
          (strBytes "device is disabled")
          || goContains (strBytes "authentication failed (status "
          ++ natDigitBytes 403 ++ strBytes "): invalid or revoked device API key")
          (strBytes "kill-switch")) = false := by decide
      have ha : (goContains (strBytes "authentication failed (status "
          ++ natDigitBytes 403 ++ strBytes "): invalid or revoked device API key")
          (strBytes "authentication failed")
          || goContains (strBytes "authentication failed (status "
          ++ natDigitBytes 403 ++ strBytes "): invalid or revoked device API key")
          (strBytes "invalid or revoked")) = true := by decide
      rw [hd, ha]
      simp
  exact ⟨key cache, by rw [key cache, key cache2]⟩

/-- Witness for C2: 401 with a valid cache present; the fallback is skipped
and the cache state is returned untouched. -/
theorem C2_auth_revoked_no_fallback_witness :
    ((401 : Nat) = 401 ∨ (401 : Nat) = 403)
    ∧ LoadWithFallback (strBytes "https://s2.example") (strBytes "key2") none
        (.response 401 (strBytes "denied") (.error (strBytes "x"))) true (.ok cfgEnabledW)
      = (.failed (strBytes "authentication failed (API key may be revoked): "
          ++ (strBytes "authentication failed (status " ++ natDigitBytes 401
            ++ strBytes "): invalid or revoked device API key")), .ok cfgEnabledW) :=
  ⟨Or.inl rfl,
    (C2_auth_revoked_no_fallback (strBytes "https://s2.example") (strBytes "key2")
      (strBytes "denied") (.error (strBytes "x")) 401 true (.ok cfgEnabledW)
      (.error (strBytes "y")) (by decide) (by decide) (Or.inl rfl)).1⟩

/-- C3 counterexample: the fetch fails with HTTP 500 — a failure class the
claim says must fall back to the cache — yet because the 500 body happens to
contain the text "device is disabled", the substring routing of
LoadWithFallback classifies it as a kill-switch failure: the call returns a
fatal error and the valid enabled cache is never read. -/
theorem C3_injected_marker_counterexample :
    (LoadWithFallback (strBytes "https://c3.example") (strBytes "key3") none
        (.response 500 (strBytes "device is disabled") (.error [])) true
        (.ok cfgEnabledW)).1
      = .failed (strBytes "device is disabled by server: config fetch failed (status 500): device is disabled")
    ∧ (LoadWithFallback (strBytes "https://c3.example") (strBytes "key3") none
        (.response 500 (strBytes "device is disabled") (.error [])) true
        (.ok cfgEnabledW)).1
      ≠ .cached cfgEnabledW := by
  constructor
  · decide
  · decide

/-- C3 as amended: when the fetch fails AND the fetch error text contains
none of the four marker substrings the routing matches on, loadWithFallback
reads the cache — a cache read failure yields the combined error, a cached
enabled policy is returned on the degraded path. -/
theorem C3_fallback_amended
    (su k : Bytes) (urlErr : Option Bytes) (out : HttpOutcome) (writeOk : Bool)
    (err ce : Bytes) (c : Config)
    (hf : FetchFromServer su k urlErr out = .error err)
    (hm1 : goContains err (strBytes "device is disabled") = false)
    (hm2 : goContains err (strBytes "kill-switch") = false)
    (hm3 : goContains err (strBytes "authentication failed") = false)
    (hm4 : goContains err (strBytes "invalid or revoked") = false)
    (hen : c.enabled ≠ some false) :
    LoadWithFallback su k urlErr out writeOk (.error ce)
      = (.failed (strBytes "config fetch failed and no cached config available: " ++ err
          ++ strBytes " (cache error: " ++ ce ++ strBytes ")"), .error ce)
    ∧ LoadWithFallback su k urlErr out writeOk (.ok c) = (.cached c, .ok c) := by
  constructor
  · rw [load_route su k urlErr out writeOk (.error ce) err hf]
    simp [hm1, hm2, hm3, hm4]
  · rw [load_route su k urlErr out writeOk (.ok c) err hf]
    simp [hm1, hm2, hm3, hm4, hen]

/-- Witness for C3 (amended): an authority timeout with a missing cache
yields the combined error; with a valid enabled cache it returns the cached
policy on the degraded path. -/
theorem C3_fallback_amended_witness :
    FetchFromServer (strBytes "https://c3w.example") (strBytes "key3w") none
        (.transportError (strBytes "context deadline exceeded"))
      = .error (strBytes "config fetch failed: context deadline exceeded")
    ∧ LoadWithFallback (strBytes "https://c3w.example") (strBytes "key3w") none
        (.transportError (strBytes "context deadline exceeded")) true
        (.error (strBytes "no cached config"))
      = (.failed (strBytes "config fetch failed and no cached config available: "
          ++ strBytes "config fetch failed: context deadline exceeded"
          ++ strBytes " (cache error: " ++ strBytes "no cached config" ++ strBytes ")"),
          .error (strBytes "no cached config"))
    ∧ LoadWithFallback (strBytes "https://c3w.example") (strBytes "key3w") none
        (.transportError (strBytes "context deadline exceeded")) true (.ok cfgEnabledW)
      = (.cached cfgEnabledW, .ok cfgEnabledW) :=
  ⟨by decide,
    (C3_fallback_amended (strBytes "https://c3w.example") (strBytes "key3w") none
      (.transportError (strBytes "context deadline exceeded")) true
      (strBytes "config fetch failed: context deadline exceeded")
      (strBytes "no cached config") cfgEnabledW
      (by decide) (by decide) (by decide) (by decide) (by decide) (by decide)).1,
    (C3_fallback_amended (strBytes "https://c3w.example") (strBytes "key3w") none
      (.transportError (strBytes "context deadline exceeded")) true
      (strBytes "config fetch failed: context deadline exceeded")
      (strBytes "no cached config") cfgEnabledW
      (by decide) (by decide) (by decide) (by decide) (by decide) (by decide)).2⟩

/-- C9 counterexample: the fetch request targets
{base}/control/v1/config, not {base}/v1/config as the claim states. -/
theorem C9_path_counterexample :
    (configRequest (strBytes "https://api.example") (strBytes "tok")).url
      = strBytes "https://api.example" ++ strBytes "/control/v1/config"
    ∧ (configRequest (strBytes "https://api.example") (strBytes "tok")).url
      ≠ strBytes "https://api.example" ++ strBytes "/v1/config" := by
  constructor
  · decide
  · decide

/-- C9 as amended: the policy fetch issues a GET for /control/v1/config
under the base address with the bearer and accept headers; 401/403 responses
are classed as credential revoked, any other non-200 as a fetch failure
carrying the sanitized body snippet, and a 200 whose body decodes to a valid
enabled policy succeeds. -/
theorem C9_request_amended
    (su k body : Bytes) (dec : Except Bytes Config) (s : Nat) (cfg : Config)
    (hsu : su ≠ []) (hk : k ≠ []) :
    configRequest su k
      = ⟨strBytes "GET", su ++ strBytes "/control/v1/config",
          [(strBytes "Authorization", strBytes "Bearer " ++ k),
            (strBytes "Accept", strBytes "application/json")]⟩
    ∧ ((s = 401 ∨ s = 403) →
        FetchFromServer su k none (.response s body dec)
          = .error (strBytes "authentication failed (status " ++ natDigitBytes s
              ++ strBytes "): invalid or revoked device API key"))
    ∧ (s ≠ 200 → ¬(s = 401 ∨ s = 403) →
        FetchFromServer su k none (.response s body dec)
          = .error (strBytes "config fetch failed (status " ++ natDigitBytes s
              ++ strBytes "): " ++ limitBody body))
    ∧ (dec = .ok cfg → cfg.enabled ≠ some false → cfg.include' ≠ [] →
        cfg.resticRepository ≠ [] → cfg.include'.length ≤ 1000 →
        cfg.exclude'.length ≤ 1000 → firstBadPath 0 cfg.include' = none →
        firstBadPath 0 cfg.exclude' = none →
        FetchFromServer su k none (.response 200 body dec) = .ok cfg) := by
  refine ⟨rfl, ?_, ?_, ?_⟩
  · intro hs
    exact fetch_auth_eq su k body dec s hsu hk hs
  · intro hne hna
    have h401 : s ≠ 401 := fun h => hna (Or.inl h)
    have h403 : s ≠ 403 := fun h => hna (Or.inr h)
    simp only [FetchFromServer, if_neg hsu, if_neg hk]
    simp [h401, h403, hne]
  · intro hdec hen hinc hrepo hincLen hexcLen hbadI hbadE
    subst hdec
    have hI : ¬(cfg.include'.length > 1000) := by omega
    have hE : ¬(cfg.exclude'.length > 1000) := by omega
    simp only [FetchFromServer, if_neg hsu, if_neg hk]
    simp [hen, hinc, hrepo, hI, hE, hbadI, hbadE]

/-- Witness for C9 (amended): concrete request shape, a 401, a 404 and a
successful 200 fetch. -/
theorem C9_request_amended_witness :
    configRequest (strBytes "https://c9.example") (strBytes "tok9")
      = ⟨strBytes "GET", strBytes "https://c9.example" ++ strBytes "/control/v1/config",
          [(strBytes "Authorization", strBytes "Bearer " ++ strBytes "tok9"),
            (strBytes "Accept", strBytes "application/json")]⟩
    ∧ FetchFromServer (strBytes "https://c9.example") (strBytes "tok9") none
        (.response 401 (strBytes "no") (.error []))
      = .error (strBytes "authentication failed (status " ++ natDigitBytes 401
          ++ strBytes "): invalid or revoked device API key")
    ∧ FetchFromServer (strBytes "https://c9.example") (strBytes "tok9") none
        (.response 404 (strBytes "not found") (.error []))
      = .error (strBytes "config fetch failed (status " ++ natDigitBytes 404
          ++ strBytes "): " ++ limitBody (strBytes "not found"))
    ∧ FetchFromServer (strBytes "https://c9.example") (strBytes "tok9") none
        (.response 200 (strBytes "ok-body") (.ok cfgEnabledW)) = .ok cfgEnabledW :=
  ⟨(C9_request_amended (strBytes "https://c9.example") (strBytes "tok9") (strBytes "no")
      (.error []) 401 cfgEnabledW (by decide) (by decide)).1,
    (C9_request_amended (strBytes "https://c9.example") (strBytes "tok9") (strBytes "no")
      (.error []) 401 cfgEnabledW (by decide) (by decide)).2.1 (Or.inl rfl),
    (C9_request_amended (strBytes "https://c9.example") (strBytes "tok9")
      (strBytes "not found") (.error []) 404 cfgEnabledW (by decide) (by decide)).2.2.1
      (by decide) (by decide),
    (C9_request_amended (strBytes "https://c9.example") (strBytes "tok9")
      (strBytes "ok-body") (.ok cfgEnabledW) 200 cfgEnabledW (by decide) (by decide)).2.2.2
      rfl (by decide) (by decide) (by decide) (by decide) (by decide) (by decide) (by decide)⟩

lemma dropWhile_replicate_neg {p : Nat → Bool} {a : Nat} (h : p a = false) (n : Nat) :
    List.dropWhile p (List.replicate n a) = List.replicate n a := by
  cases n with
  | zero => rfl
  | succ m =>
    rw [List.replicate_succ, List.dropWhile_cons, h]
    simp only [Bool.false_eq_true, if_false]

lemma utf8Valid_97_cons (t : Bytes) : utf8ValidFrom 0 (97 :: t) = utf8ValidFrom 0 t := by
  simp [utf8ValidFrom]

lemma utf8Valid_rep97_append (n : Nat) (l : Bytes) :
    utf8Valid (List.replicate n 97 ++ l) = utf8Valid l := by
  unfold utf8Valid
  induction n with
  | zero => simp
  | succ m ih =>
    rw [List.replicate_succ, List.cons_append, utf8Valid_97_cons, ih]

/-- General shape of the truncateError boundary behaviour: on a message one
byte short of the cap followed by a multi-byte character, the 4096-byte cut
ends exactly on the character's lead byte, the backwards scan stops AT that
lead byte and the source keeps it (`truncated[:i+1]`), so the result ends
with a dangling lead byte. -/
lemma truncate_keeps_dangling_lead (pre : Bytes) (lead : Nat) (rest : Bytes)
    (hlen : pre.length + 1 = maxErrorLength) (hrest : rest ≠ [])
    (hlead : (lead &&& 0xC0 == 0x80) = false) :
    truncateError (pre ++ lead :: rest) = pre ++ [lead] := by
  have hrl : 0 < rest.length := List.length_pos.mpr hrest
  have hgt : ¬((pre ++ lead :: rest).length ≤ maxErrorLength) := by
    simp only [List.length_append, List.length_cons]
    omega
  have htake : (pre ++ lead :: rest).take maxErrorLength = pre ++ [lead] := by
    rw [← hlen, List.take_append 1]
    rfl
  simp only [truncateError, if_neg hgt, htake]
  rw [List.reverse_append]
  simp only [List.reverse_cons, List.reverse_nil, List.nil_append, List.singleton_append]
  rw [List.dropWhile_cons, hlead]
  simp only [Bool.false_eq_true, if_false, List.isEmpty_cons, List.reverse_cons,
    List.reverse_reverse]

/-- Error text of exactly 4097 bytes: 4095 ASCII bytes followed by one
two-byte UTF-8 character (0xC3 0xA9). -/
def badErr4097 : Bytes := List.replicate 4095 97 ++ [195, 169]

/-- C6: the 4096-byte bound holds, but the cut splits the multi-byte
character: on a valid 4097-byte input the truncated output ends with the
bare lead byte 0xC3 (its continuation byte is cut away), i.e. it is not
valid UTF-8 — `truncated[:i+1]` keeps the lead byte the scan stopped at,
where the documented intent (and the spec) requires a cut on a character
boundary. -/
theorem C6_truncate_splits_multibyte :
    badErr4097.length = 4097
    ∧ utf8Valid badErr4097 = true
    ∧ truncateError badErr4097 = List.replicate 4095 97 ++ [195]
    ∧ (truncateError badErr4097).length ≤ 4096
    ∧ utf8Valid (truncateError badErr4097) = false := by
  have hud : badErr4097 = List.replicate 4095 97 ++ 195 :: [169] := rfl
  have htr : truncateError badErr4097 = List.replicate 4095 97 ++ [195] := by
    rw [hud]
    exact truncate_keeps_dangling_lead (List.replicate 4095 97) 195 [169]
      (by rw [List.length_replicate]; decide) (by decide) (by decide)
  refine ⟨?_, ?_, htr, ?_, ?_⟩
  · rw [hud, List.length_append, List.length_replicate]
    rfl
  · rw [hud, utf8Valid_rep97_append]
    decide
  · rw [htr, List.length_append, List.length_replicate]
    decide
  · rw [htr, utf8Valid_rep97_append]
    decide

/-- C5: any delete-by-handle call whose filename contains a path separator
(slash or backslash), a ".." sequence, or is absolute, or does not end in
".json", fails with an error and leaves the spool directory untouched. -/
theorem C5_delete_path_validation (dir : List DirEntry) (filename : Bytes)
    (h : goContains filename (strBytes "/") = true
      ∨ goContains filename (strBytes "\\") = true
      ∨ goContains filename (strBytes "..") = true
      ∨ isPrefB (strBytes "/") filename = true
      ∨ hasSuffixB filename (strBytes ".json") = false) :
    (DeleteSpooledReport dir filename).1 = dir
    ∧ (DeleteSpooledReport dir filename).2.isSome = true := by
  by_cases hc : (goContains filename (strBytes "/") || goContains filename (strBytes "\\")
      || goContains filename (strBytes "..") || isPrefB (strBytes "/") filename) = true
  · simp [DeleteSpooledReport, hc]
  · have hsuf : hasSuffixB filename (strBytes ".json") = false := by
      rcases h with h | h | h | h | h
      · exact absurd (by simp [h]) hc
      · exact absurd (by simp [h]) hc
      · exact absurd (by simp [h]) hc
      · exact absurd (by simp [h]) hc
      · exact h
    have hc2 : (goContains filename (strBytes "/") || goContains filename (strBytes "\\")
        || goContains filename (strBytes "..") || isPrefB (strBytes "/") filename) = false := by
      simpa using hc
    simp [DeleteSpooledReport, hc2, hsuf]

/-- Spool directory with one well-formed entry, used by the C5 witness. -/
def spoolDirW : List DirEntry :=
  [⟨strBytes "1700000000-backup-success.json", false, 120, none⟩]

/-- Witness for C5: the filename ../../etc/passwot.json is rejected before
any filesystem mutation. -/
theorem C5_delete_path_validation_witness :
    goContains (strBytes "../../etc/passwot.json") (strBytes "..") = true
    ∧ (DeleteSpooledReport spoolDirW (strBytes "../../etc/passwot.json")).1 = spoolDirW
    ∧ (DeleteSpooledReport spoolDirW (strBytes "../../etc/passwot.json")).2.isSome = true :=
  ⟨by decide,
    (C5_delete_path_validation spoolDirW (strBytes "../../etc/passwot.json")
      (Or.inr (Or.inr (Or.inl (by decide))))).1,
    (C5_delete_path_validation spoolDirW (strBytes "../../etc/passwot.json")
      (Or.inr (Or.inr (Or.inl (by decide))))).2⟩

/-- Failure report used by the C7 scenarios. -/
def repC7 : Report := ⟨strBytes "dev-2", strBytes "backup", strBytes "2026-02-01T00:00:00Z",
  strBytes "2026-02-01T00:10:00Z", strBytes "failure", 600000, 0, 0, 0, [], strBytes "disk full"⟩

/-- Spool directory holding exactly 100 MiB. -/
def spoolAtCeilingW : List DirEntry :=
  [⟨strBytes "1700000000-backup-failure.json", false, 104857600, none⟩]

/-- Spool directory holding 101 MiB. -/
def spoolOverCeilingW : List DirEntry :=
  [⟨strBytes "1700000000-backup-failure.json", false, 105906176, none⟩]

/-- C7 counterexample: with the directory exactly AT the 100 MiB ceiling, a
spool write succeeds and pushes the aggregate size past the ceiling — the
size check only rejects when the directory is already over the ceiling and
ignores the size of the file about to be written, so a write that causes the
aggregate to exceed the ceiling is not rejected. -/
theorem C7_write_past_ceiling_counterexample :
    spoolTotalSize spoolAtCeilingW = maxSpoolSize
    ∧ (SpoolReport spoolAtCeilingW repC7 (strBytes "x") 1700000100).2 = none
    ∧ spoolTotalSize (SpoolReport spoolAtCeilingW repC7 (strBytes "x") 1700000100).1
        = maxSpoolSize + 1 := by
  refine ⟨by decide, by decide, by decide⟩

/-- C7 as amended: the spool call is rejected (without writing) exactly when
the directory's aggregate size already exceeds 100 MiB; a successful write
implies the prior size was at most the ceiling, and grows the aggregate by
the size of the written file (so it can overshoot the ceiling by at most one
report). -/
theorem C7_spool_ceiling_amended (dir : List DirEntry) (r : Report) (jsonData : Bytes)
    (now : Nat) :
    (spoolTotalSize dir > maxSpoolSize →
      (SpoolReport dir r jsonData now).1 = dir
      ∧ (SpoolReport dir r jsonData now).2.isSome = true)
    ∧ ((SpoolReport dir r jsonData now).2 = none →
      spoolTotalSize dir ≤ maxSpoolSize
      ∧ spoolTotalSize (SpoolReport dir r jsonData now).1
          = spoolTotalSize dir + jsonData.length) := by
  constructor
  · intro hover
    simp [SpoolReport, checkSpoolSize, hover]
  · intro hok
    have hle : ¬(spoolTotalSize dir > maxSpoolSize) := by
      intro hover
      simp [SpoolReport, checkSpoolSize, hover] at hok
    have hcheck : checkSpoolSize dir = none := by
      rw [checkSpoolSize, if_neg hle]
    refine ⟨by omega, ?_⟩
    simp [SpoolReport, hcheck, spoolTotalSize, List.map_append, List.sum_append]

/-- Witness for C7 (amended): a 101 MiB directory rejects the write without
writing; a directory at the ceiling accepts it and grows by the file size. -/
theorem C7_spool_ceiling_amended_witness :
    spoolTotalSize spoolOverCeilingW > maxSpoolSize
    ∧ (SpoolReport spoolOverCeilingW repC7 (strBytes "x") 1700000100).1 = spoolOverCeilingW
    ∧ (SpoolReport spoolOverCeilingW repC7 (strBytes "x") 1700000100).2.isSome = true
    ∧ (SpoolReport spoolAtCeilingW repC7 (strBytes "x") 1700000100).2 = none
    ∧ spoolTotalSize spoolAtCeilingW ≤ maxSpoolSize
    ∧ spoolTotalSize (SpoolReport spoolAtCeilingW repC7 (strBytes "x") 1700000100).1
        = spoolTotalSize spoolAtCeilingW + (strBytes "x").length :=
  ⟨by decide,
    ((C7_spool_ceiling_amended spoolOverCeilingW repC7 (strBytes "x") 1700000100).1
      (by decide)).1,
    ((C7_spool_ceiling_amended spoolOverCeilingW repC7 (strBytes "x") 1700000100).1
      (by decide)).2,
    by decide,
    ((C7_spool_ceiling_amended spoolAtCeilingW repC7 (strBytes "x") 1700000100).2
      (by decide)).1,
    ((C7_spool_ceiling_amended spoolAtCeilingW repC7 (strBytes "x") 1700000100).2
      (by decide)).2⟩

lemma digitsAux_mem_digit {f n b : Nat} (hb : b ∈ digitsAux f n) : 48 ≤ b ∧ b ≤ 57 := by
  induction f generalizing n with
  | zero => simp [digitsAux] at hb
  | succ g ih =>
    rw [digitsAux] at hb
    by_cases hn : n < 10
    · rw [if_pos hn] at hb
      simp at hb
      omega
    · rw [if_neg hn] at hb
      rcases List.mem_append.mp hb with h | h
      · exact ih h
      · simp at h
        have : n % 10 < 10 := Nat.mod_lt _ (by omega)
        omega

lemma natDigitBytes_no_crlf (n : Nat) :
    (natDigitBytes n).all (fun b => !(b == 10) && !(b == 13)) = true := by
  refine List.all_eq_true.mpr (fun b hb => ?_)
  have h := digitsAux_mem_digit hb
  simp only [Bool.and_eq_true, Bool.not_eq_true', beq_eq_false_iff_ne]
  omega

lemma limitBody_take_512 (body : Bytes) : limitBody (body.take 512) = limitBody body := by
  simp only [limitBody, List.take_take]
  norm_num

lemma limitBody_no_crlf (body : Bytes) :
    (limitBody body).all (fun b => !(b == 10) && !(b == 13)) = true := by
  have hpt : ∀ c : Nat,
      ((fun b => !(b == 10) && !(b == 13))
        ((fun b => if b == 13 then 32 else b) ((fun b => if b == 10 then 32 else b) c))) = true := by
    intro c
    by_cases h10 : c = 10
    · simp [h10]
    · by_cases h13 : c = 13
      · simp [h13]
      · simp [h10, h13]
  have hall : ((trimSpaceB (body.take 512)).map (fun b => if b == 10 then 32 else b)
      |>.map (fun b => if b == 13 then 32 else b)).all
        (fun b => !(b == 10) && !(b == 13)) = true := by
    rw [List.all_map, List.all_map]
    exact List.all_eq_true.mpr (fun c _ => hpt c)
  simp only [limitBody]
  split
  · rw [List.all_append]
    refine Bool.and_eq_true_iff.mpr ⟨?_, by decide⟩
    refine List.all_eq_true.mpr (fun b hb => ?_)
    exact List.all_eq_true.mp hall b ((List.take_sublist _ _).subset hb)
  · exact hall

lemma limitBody_length_le (body : Bytes) : (limitBody body).length ≤ 259 := by
  simp only [limitBody]
  split
  · rename_i h
    rw [List.length_append, List.length_take]
    have : (strBytes "...").length = 3 := by decide
    omega
  · rename_i h
    omega

lemma limitBody_rep97 :
    limitBody (List.replicate 10000 97) = List.replicate 256 97 ++ strBytes "..." := by
  have h1 : (List.replicate 10000 (97 : Nat)).take 512 = List.replicate 512 97 := by
    rw [List.take_replicate]
    norm_num
  have h2 : trimSpaceB (List.replicate 512 (97 : Nat)) = List.replicate 512 97 := by
    unfold trimSpaceB
    rw [dropWhile_replicate_neg (by decide : isSpaceByte 97 = false),
      List.reverse_replicate, dropWhile_replicate_neg (by decide : isSpaceByte 97 = false),
      List.reverse_replicate]
  have h3 : (List.replicate 512 (97 : Nat)).map (fun b => if b == 10 then 32 else b)
      = List.replicate 512 97 := by
    rw [List.map_replicate]
    norm_num
  have h4 : (List.replicate 512 (97 : Nat)).map (fun b => if b == 13 then 32 else b)
      = List.replicate 512 97 := by
    rw [List.map_replicate]
    norm_num
  simp only [limitBody, h1, h2, h3, h4, List.length_replicate]
  rw [if_pos (by norm_num)]
  rw [List.take_replicate]
  norm_num

/-- C8 counterexample: on HTTP 500 with a 10,000-byte ASCII body the failure
message is 287 bytes — the sanitized body snippet is capped at 256 bytes PLUS
a 3-byte ellipsis, and the fixed prefix and status digits come on top — so
the claimed hard 256-displayed-character cap on the resulting message does
not hold (every byte here is a printable ASCII character). -/
theorem C8_display_cap_counterexample :
    (sendFailMsg 500 (List.replicate 10000 97)).length = 287
    ∧ 256 < (sendFailMsg 500 (List.replicate 10000 97)).length := by
  have h : (sendFailMsg 500 (List.replicate 10000 97)).length = 287 := by
    simp only [sendFailMsg, limitBody_rep97, List.length_append, List.length_replicate]
    decide
  exact ⟨h, by rw [h]; norm_num⟩

/-- C8 as amended: the failure message for a non-200 response is built from
at most the first 512 bytes of the body, contains no newline or carriage
return anywhere, and its body-derived snippet is at most 259 bytes (256
bytes of sanitized body plus a 3-byte ellipsis). -/
theorem C8_sendmsg_amended (status : Nat) (body : Bytes) :
    sendFailMsg status body = sendFailMsg status (body.take 512)
    ∧ (sendFailMsg status body).all (fun b => !(b == 10) && !(b == 13)) = true
    ∧ (limitBody body).length ≤ 259 := by
  refine ⟨?_, ?_, limitBody_length_le body⟩
  · simp only [sendFailMsg, limitBody_take_512]
  · simp only [sendFailMsg, List.all_append]
    refine Bool.and_eq_true_iff.mpr ⟨Bool.and_eq_true_iff.mpr ⟨Bool.and_eq_true_iff.mpr
      ⟨by decide, natDigitBytes_no_crlf status⟩, by decide⟩, limitBody_no_crlf body⟩

lemma lexLe_total : ∀ a b : Bytes, lexLe a b = true ∨ lexLe b a = true
  | [], _ => Or.inl rfl
  | _ :: _, [] => Or.inr rfl
  | a :: as, b :: bs => by
    rcases Nat.lt_trichotomy a b with h | h | h
    · left
      simp [lexLe, h]
    · subst h
      rcases lexLe_total as bs with ih | ih
      · left
        simp [lexLe, ih]
      · right
        simp [lexLe, ih]
    · right
      simp [lexLe, h]

lemma lexLe_trans : ∀ {a b c : Bytes}, lexLe a b = true → lexLe b c = true → lexLe a c = true
  | [], _, _, _, _ => rfl
  | _ :: _, [], _, hab, _ => by simp [lexLe] at hab
  | _ :: _, _ :: _, [], _, hbc => by simp [lexLe] at hbc
  | a :: as, b :: bs, c :: cs, hab, hbc => by
    simp only [lexLe, Bool.or_eq_true, decide_eq_true_eq, Bool.and_eq_true, beq_iff_eq] at *
    rcases hab with h1 | ⟨rfl, h1⟩
    · rcases hbc with h2 | ⟨rfl, h2⟩
      · exact Or.inl (by omega)
      · exact Or.inl h1
    · rcases hbc with h2 | ⟨rfl, h2⟩
      · exact Or.inl h2
      · exact Or.inr ⟨rfl, lexLe_trans h1 h2⟩

instance : IsTotal Bytes lexRel := ⟨lexLe_total⟩

instance : IsTrans Bytes lexRel := ⟨fun _ _ _ => lexLe_trans⟩

lemma listSpoolNames_sorted (dir : List DirEntry) :
    List.Pairwise lexRel (listSpoolNames dir) :=
  List.sorted_insertionSort lexRel _

lemma listSpoolNames_nodup (dir : List DirEntry) (h : (dir.map DirEntry.name).Nodup) :
    (listSpoolNames dir).Nodup := by
  have hsub : ((dir.filter (fun e => !e.isDir && hasSuffixB e.name (strBytes ".json"))).map
      DirEntry.name).Sublist (dir.map DirEntry.name) :=
    (List.filter_sublist dir).map DirEntry.name
  exact (List.perm_insertionSort lexRel _).symm.nodup (hsub.nodup h)

lemma listSpoolNames_mem {dir : List DirEntry} {fn : Bytes} (h : fn ∈ listSpoolNames dir) :
    ∃ e ∈ dir, e.name = fn ∧ e.isDir = false
      ∧ hasSuffixB fn (strBytes ".json") = true := by
  have h2 : fn ∈ (dir.filter
      (fun e => !e.isDir && hasSuffixB e.name (strBytes ".json"))).map DirEntry.name :=
    ((List.perm_insertionSort lexRel _).mem_iff).mp h
  rcases List.mem_map.mp h2 with ⟨e, he, rfl⟩
  rcases List.mem_filter.mp he with ⟨hdir, hcond⟩
  rcases Bool.and_eq_true_iff.mp hcond with ⟨hnd, hsuf⟩
  exact ⟨e, hdir, rfl, by simpa using hnd, hsuf⟩

lemma find?_name_self : ∀ (dir : List DirEntry) (e : DirEntry), e ∈ dir →
    (dir.map DirEntry.name).Nodup →
    dir.find? (fun x => x.name == e.name) = some e
  | d :: t, e, he, h => by
    rw [List.map_cons, List.nodup_cons] at h
    rcases List.mem_cons.mp he with rfl | ht
    · simp [List.find?_cons]
    · have hd : (d.name == e.name) = false := by
        refine beq_eq_false_iff_ne.mpr (fun hEq => h.1 ?_)
        rw [hEq]
        exact List.mem_map.mpr ⟨e, ht, rfl⟩
      rw [List.find?_cons, hd]
      exact find?_name_self t e ht h.2

lemma readSpool_self {dir : List DirEntry} {e : DirEntry} (he : e ∈ dir)
    (h : (dir.map DirEntry.name).Nodup) :
    readSpool dir e.name = if e.isDir then none else e.content := by
  rw [readSpool, find?_name_self dir e he h]

lemma loadLoop_snd_sublist (dir : List DirEntry) :
    ∀ fns : List Bytes, (loadLoop dir fns).2.Sublist fns
  | [] => List.Sublist.refl []
  | fn :: rest => by
    rw [loadLoop]
    cases h : readSpool dir fn with
    | some r => exact (loadLoop_snd_sublist dir rest).cons₂ fn
    | none => exact (loadLoop_snd_sublist dir rest).cons fn

lemma loadLoop_len (dir : List DirEntry) :
    ∀ fns : List Bytes, (loadLoop dir fns).1.length = (loadLoop dir fns).2.length
  | [] => rfl
  | fn :: rest => by
    rw [loadLoop]
    cases h : readSpool dir fn with
    | some r => simp [loadLoop_len dir rest]
    | none => exact loadLoop_len dir rest

lemma loadLoop_zip (dir : List DirEntry) :
    ∀ fns : List Bytes, ∀ p ∈ (loadLoop dir fns).1.zip (loadLoop dir fns).2,
      readSpool dir p.2 = some p.1
  | [] => by simp [loadLoop]
  | fn :: rest => by
    rw [loadLoop]
    cases h : readSpool dir fn with
    | some r =>
      intro p hp
      simp only [List.zip_cons_cons, List.mem_cons] at hp
      rcases hp with rfl | hp
      · exact h
      · exact loadLoop_zip dir rest p hp
    | none => exact loadLoop_zip dir rest

lemma loadLoop_mem (dir : List DirEntry) :
    ∀ fns : List Bytes, ∀ fn ∈ (loadLoop dir fns).2, ∃ r, readSpool dir fn = some r
  | [] => by simp [loadLoop]
  | f0 :: rest => by
    rw [loadLoop]
    cases h : readSpool dir f0 with
    | some r =>
      intro fn hfn
      simp only [List.mem_cons] at hfn
      rcases hfn with rfl | hfn
      · exact ⟨r, h⟩
      · exact loadLoop_mem dir rest fn hfn
    | none => exact loadLoop_mem dir rest

lemma loadLoop_zip_snd (dir : List DirEntry) :
    ∀ fns : List Bytes,
      ((loadLoop dir fns).1.zip (loadLoop dir fns).2).map Prod.snd = (loadLoop dir fns).2
  | [] => rfl
  | fn :: rest => by
    rw [loadLoop]
    cases h : readSpool dir fn with
    | some r => simp [loadLoop_zip_snd dir rest]
    | none => exact loadLoop_zip_snd dir rest

/-- The validation DeleteSpooledReport applies to a filename handle. -/
def validDeleteName (name : Bytes) : Bool :=
  !(goContains name (strBytes "/") || goContains name (strBytes "\\")
    || goContains name (strBytes "..") || isPrefB (strBytes "/") name)
  && hasSuffixB name (strBytes ".json")

lemma eraseP_eq_filter_of_nodup : ∀ (dir : List DirEntry) (fn : Bytes),
    (dir.map DirEntry.name).Nodup →
    dir.eraseP (fun e => e.name == fn) = dir.filter (fun e => !(e.name == fn))
  | [], _, _ => rfl
  | d :: t, fn, h => by
    rw [List.map_cons, List.nodup_cons] at h
    by_cases hd : d.name = fn
    · have hb : (d.name == fn) = true := beq_iff_eq.mpr hd
      rw [List.eraseP_cons, List.filter_cons, hb]
      simp only [cond_true, Bool.not_true, Bool.false_eq_true, if_false]
      symm
      refine List.filter_eq_self.mpr (fun e he => ?_)
      have : e.name ≠ fn := by
        intro hEq
        exact h.1 (hd ▸ hEq ▸ List.mem_map.mpr ⟨e, he, rfl⟩)
      simpa using this
    · have hb : (d.name == fn) = false := beq_eq_false_iff_ne.mpr hd
      rw [List.eraseP_cons, List.filter_cons, hb]
      simp only [cond_false, Bool.not_false, if_true]
      rw [eraseP_eq_filter_of_nodup t fn h.2]

lemma delete_fst (dir : List DirEntry) (fn : Bytes) (h : (dir.map DirEntry.name).Nodup) :
    (DeleteSpooledReport dir fn).1
      = if validDeleteName fn then dir.filter (fun e => !(e.name == fn)) else dir := by
  by_cases h1 : (goContains fn (strBytes "/") || goContains fn (strBytes "\\")
      || goContains fn (strBytes "..") || isPrefB (strBytes "/") fn) = true
  · have hv : validDeleteName fn = false := by
      simp [validDeleteName, h1]
    simp [DeleteSpooledReport, h1, hv]
  · have h1f : (goContains fn (strBytes "/") || goContains fn (strBytes "\\")
        || goContains fn (strBytes "..") || isPrefB (strBytes "/") fn) = false := by
      simpa using h1
    by_cases hs : hasSuffixB fn (strBytes ".json") = true
    · have hv : validDeleteName fn = true := by
        simp [validDeleteName, h1f, hs]
      rw [if_pos hv]
      by_cases ha : dir.any (fun e => e.name == fn) = true
      · simp only [DeleteSpooledReport, h1f, hs, ha]
        simp [eraseP_eq_filter_of_nodup dir fn h]
      · have haf : dir.any (fun e => e.name == fn) = false := by simpa using ha
        simp only [DeleteSpooledReport, h1f, hs, haf]
        simp only [Bool.false_eq_true, if_false]
        symm
        refine List.filter_eq_self.mpr (fun e he => ?_)
        have := List.any_eq_false.mp haf e he
        simpa using this
    · have hsf : hasSuffixB fn (strBytes ".json") = false := by simpa using hs
      have hv : validDeleteName fn = false := by
        simp [validDeleteName, hsf]
      simp [DeleteSpooledReport, h1f, hsf, hv]

/-- Per-attempt log: the filename of each loaded report together with the
outcome of its send attempt, in attempt order. -/
def logOf (o : Nat → Bool) : Nat → List (Report × Bytes) → List (Bytes × Bool)
  | _, [] => []
  | i, (_, fn) :: rest => (fn, o i) :: logOf o (i + 1) rest

lemma drainLoop_snd (o : Nat → Bool) :
    ∀ (i : Nat) (ps : List (Report × Bytes)) (dir : List DirEntry),
      (drainLoop o i ps dir).2 = logOf o i ps
  | _, [], _ => rfl
  | i, (r, fn) :: rest, dir => by
    by_cases ho : o i
    · simp only [drainLoop, logOf, ho, if_true]
      rw [drainLoop_snd o (i + 1) rest]
    · simp only [drainLoop, logOf, ho, Bool.false_eq_true, if_false]
      rw [drainLoop_snd o (i + 1) rest]

lemma logOf_map_fst (o : Nat → Bool) :
    ∀ (i : Nat) (ps : List (Report × Bytes)),
      (logOf o i ps).map Prod.fst = ps.map Prod.snd
  | _, [] => rfl
  | i, (r, fn) :: rest => by
    simp only [logOf, List.map_cons]
    rw [logOf_map_fst o (i + 1) rest]

lemma logOf_length (o : Nat → Bool) :
    ∀ (i : Nat) (ps : List (Report × Bytes)), (logOf o i ps).length = ps.length
  | _, [] => rfl
  | i, (r, fn) :: rest => by
    simp only [logOf, List.length_cons]
    rw [logOf_length o (i + 1) rest]

/-- Names actually deleted by the drain loop: attempts whose send succeeded
and whose filename passes the delete-handle validation. -/
def delNames (o : Nat → Bool) : Nat → List (Report × Bytes) → List Bytes
  | _, [] => []
  | i, (_, fn) :: rest =>
    if o i && validDeleteName fn then fn :: delNames o (i + 1) rest
    else delNames o (i + 1) rest

lemma delNames_eq_log_filter (o : Nat → Bool) :
    ∀ (i : Nat) (ps : List (Report × Bytes)),
      delNames o i ps
        = ((logOf o i ps).filter (fun p => p.2 && validDeleteName p.1)).map Prod.fst
  | _, [] => rfl
  | i, (r, fn) :: rest => by
    by_cases hc : (o i && validDeleteName fn) = true
    · simp only [delNames, logOf, hc, if_true, List.filter_cons, List.map_cons]
      rw [delNames_eq_log_filter o (i + 1) rest]
    · have hcf : (o i && validDeleteName fn) = false := by simpa using hc
      simp only [delNames, logOf, hcf, Bool.false_eq_true, if_false, List.filter_cons]
      rw [delNames_eq_log_filter o (i + 1) rest]

lemma delNames_sublist_snd (o : Nat → Bool) :
    ∀ (i : Nat) (ps : List (Report × Bytes)),
      (delNames o i ps).Sublist (ps.map Prod.snd)
  | _, [] => List.Sublist.refl []
  | i, (r, fn) :: rest => by
    by_cases hc : (o i && validDeleteName fn) = true
    · simp only [delNames, hc, if_true, List.map_cons]
      exact (delNames_sublist_snd o (i + 1) rest).cons₂ fn
    · have hcf : (o i && validDeleteName fn) = false := by simpa using hc
      simp only [delNames, hcf, Bool.false_eq_true, if_false, List.map_cons]
      exact (delNames_sublist_snd o (i + 1) rest).cons fn

lemma drainLoop_fst (o : Nat → Bool) :
    ∀ (i : Nat) (ps : List (Report × Bytes)) (dir : List DirEntry),
      (dir.map DirEntry.name).Nodup →
      (drainLoop o i ps dir).1
        = dir.filter (fun e => !((delNames o i ps).contains e.name))
  | _, [], dir, _ => by
    simp [drainLoop, delNames]
  | i, (r, fn) :: rest, dir, h => by
    by_cases ho : o i
    · simp only [drainLoop, ho, if_true]
      by_cases hv : validDeleteName fn = true
      · have hd1 : (DeleteSpooledReport dir fn).1
            = dir.filter (fun e => !(e.name == fn)) := by
          rw [delete_fst dir fn h, if_pos hv]
        have hnd1 : ((dir.filter (fun e => !(e.name == fn))).map DirEntry.name).Nodup :=
          (((List.filter_sublist dir).map DirEntry.name)).nodup h
        rw [hd1, drainLoop_fst o (i + 1) rest _ hnd1, List.filter_filter]
        have hdel : delNames o i ((r, fn) :: rest) = fn :: delNames o (i + 1) rest := by
          simp [delNames, ho, hv]
        rw [hdel]
        refine List.filter_congr (fun e he => ?_)
        rw [List.contains_cons]
        simp only [Bool.not_or, Bool.and_comm]
      · have hvf : validDeleteName fn = false := by simpa using hv
        have hd1 : (DeleteSpooledReport dir fn).1 = dir := by
          rw [delete_fst dir fn h, hvf]
          simp
        have hdel : delNames o i ((r, fn) :: rest) = delNames o (i + 1) rest := by
          simp [delNames, ho, hvf]
        rw [hd1, drainLoop_fst o (i + 1) rest dir h, hdel]
    · have hof : o i = false := by simpa using ho
      simp only [drainLoop, hof, Bool.false_eq_true, if_false]
      have hdel : delNames o i ((r, fn) :: rest) = delNames o (i + 1) rest := by
        simp [delNames, hof]
      rw [drainLoop_fst o (i + 1) rest dir h, hdel]

/-- C4 as amended: drainPending with maxCount=20 attempts at most 20 sends,
the attempted filenames are the loaded ones among the 20 lexicographically
smallest .json names in ascending order, each attempted at most once, every
attempted name denotes a non-directory .json spool entry with readable,
parseable content, and the final directory is the original one minus exactly
those entries whose send returned 200 AND whose filename passes the
delete-handle validation (an entry whose name contains ".." stays even after
a successful send); entries whose send failed are left in place, never
reordered. -/
theorem C4_drain_order_amended (su k : Bytes) (dir : List DirEntry) (o : Nat → Bool)
    (hsu : su ≠ []) (hk : k ≠ []) (hnd : (dir.map DirEntry.name).Nodup) :
    (SendPendingReports su k dir o 20).2.length ≤ 20
    ∧ ((SendPendingReports su k dir o 20).2.map Prod.fst).Sublist
        ((listSpoolNames dir).take 20)
    ∧ List.Pairwise lexRel ((SendPendingReports su k dir o 20).2.map Prod.fst)
    ∧ ((SendPendingReports su k dir o 20).2.map Prod.fst).Nodup
    ∧ ((SendPendingReports su k dir o 20).2.map Prod.fst).all (fun fn =>
        dir.any (fun e => e.name == fn && !e.isDir
          && hasSuffixB e.name (strBytes ".json") && e.content.isSome)) = true
    ∧ (SendPendingReports su k dir o 20).1
        = dir.filter (fun e =>
            !((((SendPendingReports su k dir o 20).2.filter
              (fun p => p.2 && validDeleteName p.1)).map Prod.fst).contains e.name)) := by
  have hsp : SendPendingReports su k dir o 20
      = drainLoop o 0
          ((loadLoop dir ((listSpoolNames dir).take 20)).1.zip
            (loadLoop dir ((listSpoolNames dir).take 20)).2) dir := by
    simp [SendPendingReports, hsu, hk, LoadPendingReports]
  have hlog : (SendPendingReports su k dir o 20).2
      = logOf o 0 ((loadLoop dir ((listSpoolNames dir).take 20)).1.zip
          (loadLoop dir ((listSpoolNames dir).take 20)).2) := by
    rw [hsp, drainLoop_snd]
  have hfst : (SendPendingReports su k dir o 20).2.map Prod.fst
      = (loadLoop dir ((listSpoolNames dir).take 20)).2 := by
    rw [hlog, logOf_map_fst, loadLoop_zip_snd]
  have hsubL : (loadLoop dir ((listSpoolNames dir).take 20)).2.Sublist
      ((listSpoolNames dir).take 20) := loadLoop_snd_sublist dir _
  have hsubN : (loadLoop dir ((listSpoolNames dir).take 20)).2.Sublist
      (listSpoolNames dir) := hsubL.trans (List.take_sublist _ _)
  refine ⟨?_, ?_, ?_, ?_, ?_, ?_⟩
  · rw [hlog, logOf_length, List.length_zip, loadLoop_len, Nat.min_self]
    exact le_trans hsubL.length_le (List.length_take_le _ _)
  · rw [hfst]
    exact hsubL
  · rw [hfst]
    exact (listSpoolNames_sorted dir).sublist hsubN
  · rw [hfst]
    exact hsubN.nodup (listSpoolNames_nodup dir hnd)
  · rw [hfst]
    refine List.all_eq_true.mpr (fun fn hfn => ?_)
    have hfnL : fn ∈ listSpoolNames dir := hsubN.subset hfn
    rcases listSpoolNames_mem hfnL with ⟨e, he, hname, hdirF, hsuf⟩
    rcases loadLoop_mem dir _ fn hfn with ⟨r, hr⟩
    rw [readSpool] at hr
    cases hfind : dir.find? (fun x => x.name == fn) with
    | none => rw [hfind] at hr; exact absurd hr (by simp)
    | some e0 =>
      rw [hfind] at hr
      have hr2 : (if e0.isDir = true then none else e0.content) = some r := hr
      have he0 : e0 ∈ dir := List.mem_of_find?_eq_some hfind
      have hn0 : (e0.name == fn) = true := by
        have h5 := List.find?_some hfind
        simpa using h5
      have hd0 : e0.isDir = false := by
        by_contra hcon
        have h6 : e0.isDir = true := by simpa using hcon
        rw [h6] at hr2
        exact absurd hr2 (by simp)
      rw [hd0] at hr2
      simp only [Bool.false_eq_true, if_false] at hr2
      refine List.any_eq_true.mpr ⟨e0, he0, ?_⟩
      have hsuf0 : hasSuffixB e0.name (strBytes ".json") = true := by
        rw [beq_iff_eq.mp hn0]
        exact hsuf
      simp [hn0, hd0, hsuf0, hr2]
  · rw [hsp, drainLoop_fst o 0 _ dir hnd, drainLoop_snd, delNames_eq_log_filter]

/-- C10 as amended: the loaded-report and filename lists of a drain pass are
index-aligned (equal length, and each pair re-reads to the same report);
every spool entry that cannot be read or parsed survives the drain; every
entry deleted by the drain had parseable content, a filename passing the
delete-handle validation, and a successful send logged for exactly that
filename; and, conversely, every directory entry whose name passes the
validation and has a successful send logged for it IS deleted — so each
successful send deletes exactly the file its report was loaded from when
the name passes validation, and nothing at all otherwise. -/
theorem C10_skip_and_align_amended (su k : Bytes) (dir : List DirEntry) (o : Nat → Bool)
    (maxCount : Nat) (hsu : su ≠ []) (hk : k ≠ []) (hnd : (dir.map DirEntry.name).Nodup) :
    (LoadPendingReports dir maxCount).1.length = (LoadPendingReports dir maxCount).2.length
    ∧ ((LoadPendingReports dir maxCount).1.zip (LoadPendingReports dir maxCount).2).all
        (fun p => readSpool dir p.2 == some p.1) = true
    ∧ (dir.filter (fun e => e.content.isNone)).all
        (fun e => (SendPendingReports su k dir o maxCount).1.contains e) = true
    ∧ (dir.filter (fun e => !((SendPendingReports su k dir o maxCount).1.contains e))).all
        (fun e => validDeleteName e.name && e.content.isSome
          && ((SendPendingReports su k dir o maxCount).2.contains (e.name, true))) = true
    ∧ (dir.filter (fun e => validDeleteName e.name
          && ((SendPendingReports su k dir o maxCount).2.contains (e.name, true)))).all
        (fun e => !((SendPendingReports su k dir o maxCount).1.contains e)) = true := by
  have hsp : SendPendingReports su k dir o maxCount
      = drainLoop o 0
          ((loadLoop dir ((listSpoolNames dir).take maxCount)).1.zip
            (loadLoop dir ((listSpoolNames dir).take maxCount)).2) dir := by
    simp [SendPendingReports, hsu, hk, LoadPendingReports]
  have hfinal : (SendPendingReports su k dir o maxCount).1
      = dir.filter (fun e =>
          !((delNames o 0
            ((loadLoop dir ((listSpoolNames dir).take maxCount)).1.zip
              (loadLoop dir ((listSpoolNames dir).take maxCount)).2)).contains e.name)) := by
    rw [hsp, drainLoop_fst o 0 _ dir hnd]
  -- a name in delNames always denotes a loaded (readable, parseable) file
  have hdelread : ∀ fn ∈ delNames o 0
      ((loadLoop dir ((listSpoolNames dir).take maxCount)).1.zip
        (loadLoop dir ((listSpoolNames dir).take maxCount)).2),
      ∃ r, readSpool dir fn = some r := by
    intro fn hfn
    have h1 : fn ∈ (loadLoop dir ((listSpoolNames dir).take maxCount)).2 := by
      have h2 := (delNames_sublist_snd o 0 _).subset hfn
      rwa [loadLoop_zip_snd] at h2
    exact loadLoop_mem dir _ fn h1
  refine ⟨loadLoop_len dir _, ?_, ?_, ?_, ?_⟩
  · exact List.all_eq_true.mpr (fun p hp => beq_iff_eq.mpr (loadLoop_zip dir _ p hp))
  · refine List.all_eq_true.mpr (fun e he => ?_)
    rcases List.mem_filter.mp he with ⟨hedir, hnone⟩
    have hmem : e ∈ (SendPendingReports su k dir o maxCount).1 := by
      rw [hfinal]
      refine List.mem_filter.mpr ⟨hedir, ?_⟩
      have hcf : (delNames o 0 ((loadLoop dir ((listSpoolNames dir).take maxCount)).1.zip
          (loadLoop dir ((listSpoolNames dir).take maxCount)).2)).contains e.name = false := by
        cases h : (delNames o 0 ((loadLoop dir ((listSpoolNames dir).take maxCount)).1.zip
            (loadLoop dir ((listSpoolNames dir).take maxCount)).2)).contains e.name
        · rfl
        · exfalso
          have hin : e.name ∈ delNames o 0
              ((loadLoop dir ((listSpoolNames dir).take maxCount)).1.zip
                (loadLoop dir ((listSpoolNames dir).take maxCount)).2) :=
            List.elem_iff.mp h
          rcases hdelread e.name hin with ⟨r, hr⟩
          rw [readSpool_self hedir hnd] at hr
          cases hdir : e.isDir with
          | true => rw [hdir] at hr; exact absurd hr (by simp)
          | false =>
            rw [hdir] at hr
            simp only [Bool.false_eq_true, if_false] at hr
            rw [hr] at hnone
            exact absurd hnone (by simp)
      rw [hcf]
      rfl
    exact List.elem_iff.mpr hmem
  · refine List.all_eq_true.mpr (fun e he => ?_)
    rcases List.mem_filter.mp he with ⟨hedir, hnotin⟩
    have hnotmem : e ∉ (SendPendingReports su k dir o maxCount).1 := by
      intro hmem
      have hc : (SendPendingReports su k dir o maxCount).1.contains e = true :=
        List.elem_iff.mpr hmem
      rw [hc] at hnotin
      exact absurd hnotin (by simp)
    have hname : e.name ∈ delNames o 0
        ((loadLoop dir ((listSpoolNames dir).take maxCount)).1.zip
          (loadLoop dir ((listSpoolNames dir).take maxCount)).2) := by
      by_contra hcon
      refine hnotmem ?_
      rw [hfinal]
      refine List.mem_filter.mpr ⟨hedir, ?_⟩
      have : (delNames o 0 ((loadLoop dir ((listSpoolNames dir).take maxCount)).1.zip
          (loadLoop dir ((listSpoolNames dir).take maxCount)).2)).contains e.name = false := by
        cases h : (delNames o 0 ((loadLoop dir ((listSpoolNames dir).take maxCount)).1.zip
            (loadLoop dir ((listSpoolNames dir).take maxCount)).2)).contains e.name
        · rfl
        · exact absurd (List.elem_iff.mp h) hcon
      rw [this]
      rfl
    -- content present
    rcases hdelread e.name hname with ⟨r, hr⟩
    rw [readSpool_self hedir hnd] at hr
    have hdirF : e.isDir = false := by
      cases hdir : e.isDir with
      | true => rw [hdir] at hr; exact absurd hr (by simp)
      | false => rfl
    rw [hdirF] at hr
    simp only [Bool.false_eq_true, if_false] at hr
    -- log membership and validity
    rw [delNames_eq_log_filter] at hname
    rcases List.mem_map.mp hname with ⟨p, hpmem, hpfst⟩
    rcases List.mem_filter.mp hpmem with ⟨hplog, hpcond⟩
    rcases Bool.and_eq_true_iff.mp hpcond with ⟨hp2, hpvalid⟩
    have hplog2 : (e.name, true) ∈ (SendPendingReports su k dir o maxCount).2 := by
      rw [hsp, drainLoop_snd]
      have hpeq : p = (e.name, true) := by
        rcases p with ⟨pa, pb⟩
        simp only at hpfst hp2
        rw [hpfst] at *
        cases pb with
        | true => rfl
        | false => exact absurd hp2 (by simp)
      rw [← hpeq]
      exact hplog
    have hcontains : (SendPendingReports su k dir o maxCount).2.contains (e.name, true) = true :=
      List.elem_iff.mpr hplog2
    rw [hpfst] at hpvalid
    simp [hpvalid, hr]
    exact hplog2
  · refine List.all_eq_true.mpr (fun e he => ?_)
    rcases List.mem_filter.mp he with ⟨hedir, hcond⟩
    rcases Bool.and_eq_true_iff.mp hcond with ⟨hvalid, hcont⟩
    have hlogmem : (e.name, true) ∈ logOf o 0
        ((loadLoop dir ((listSpoolNames dir).take maxCount)).1.zip
          (loadLoop dir ((listSpoolNames dir).take maxCount)).2) := by
      have h1 : (e.name, true) ∈ (SendPendingReports su k dir o maxCount).2 :=
        List.elem_iff.mp hcont
      rwa [hsp, drainLoop_snd] at h1
    have hdel : e.name ∈ delNames o 0
        ((loadLoop dir ((listSpoolNames dir).take maxCount)).1.zip
          (loadLoop dir ((listSpoolNames dir).take maxCount)).2) := by
      rw [delNames_eq_log_filter]
      refine List.mem_map.mpr ⟨(e.name, true), List.mem_filter.mpr ⟨hlogmem, ?_⟩, rfl⟩
      simp [hvalid]
    have hnotmem : e ∉ (SendPendingReports su k dir o maxCount).1 := by
      rw [hfinal]
      intro hmem
      rcases List.mem_filter.mp hmem with ⟨_, hpred⟩
      have hcd : (delNames o 0 ((loadLoop dir ((listSpoolNames dir).take maxCount)).1.zip
          (loadLoop dir ((listSpoolNames dir).take maxCount)).2)).contains e.name = true :=
        List.elem_iff.mpr hdel
      rw [hcd] at hpred
      exact absurd hpred (by simp)
    cases hc : (SendPendingReports su k dir o maxCount).1.contains e with
    | false => rfl
    | true => exact absurd (List.elem_iff.mp hc) hnotmem

/-- Demo reports for the drain scenarios. -/
def repC4 : Report := ⟨strBytes "dev-4", strBytes "backup", strBytes "2026-04-01T00:00:00Z",
  strBytes "2026-04-01T00:02:00Z", strBytes "success", 120000, 5, 6, 7, strBytes "snap4", []⟩

def repC4b : Report := ⟨strBytes "dev-4", strBytes "backup", strBytes "2026-04-02T00:00:00Z",
  strBytes "2026-04-02T00:02:00Z", strBytes "success", 110000, 4, 5, 6, strBytes "snap5", []⟩

/-- C4 counterexample: both spooled reports are sent and both sends return
HTTP 200 (the log records true for both), yet the entry named
"1-a-b..json" is NOT deleted — the delete-handle validation rejects the
".." in its name — so the drain does not delete exactly those entries whose
send returned 200. -/
theorem C4_sent_not_deleted_counterexample :
    SendPendingReports (strBytes "https://c4.example") (strBytes "k4")
        [⟨strBytes "1-a-b..json", false, 50, some repC4⟩,
         ⟨strBytes "2-c-d.json", false, 50, some repC4b⟩]
        (fun _ => true) 20
      = ([⟨strBytes "1-a-b..json", false, 50, some repC4⟩],
         [(strBytes "1-a-b..json", true), (strBytes "2-c-d.json", true)]) := by
  decide

/-- Spool directory for the C4 witness: a parseable oldest entry, a parseable
newer entry, and an unreadable middle entry. -/
def dirC4W : List DirEntry :=
  [⟨strBytes "2023-backup-success.json", false, 100, some repC4⟩,
   ⟨strBytes "2024-retention-success.json", false, 90, none⟩,
   ⟨strBytes "2021-backup-failure.json", false, 80, some repC4b⟩]

/-- Send outcomes for the C4 witness: only the first attempt succeeds. -/
def oC4W : Nat → Bool := fun i => i == 0

/-- Witness for C4 (amended) at a concrete three-entry spool. -/
theorem C4_drain_order_amended_witness :
    (strBytes "https://c4w.example" ≠ [] ∧ strBytes "k4w" ≠ []
      ∧ (dirC4W.map DirEntry.name).Nodup)
    ∧ ((SendPendingReports (strBytes "https://c4w.example") (strBytes "k4w") dirC4W oC4W 20).2.length ≤ 20
    ∧ ((SendPendingReports (strBytes "https://c4w.example") (strBytes "k4w") dirC4W oC4W 20).2.map Prod.fst).Sublist
        ((listSpoolNames dirC4W).take 20)
    ∧ List.Pairwise lexRel ((SendPendingReports (strBytes "https://c4w.example") (strBytes "k4w") dirC4W oC4W 20).2.map Prod.fst)
    ∧ ((SendPendingReports (strBytes "https://c4w.example") (strBytes "k4w") dirC4W oC4W 20).2.map Prod.fst).Nodup
    ∧ ((SendPendingReports (strBytes "https://c4w.example") (strBytes "k4w") dirC4W oC4W 20).2.map Prod.fst).all (fun fn =>
        dirC4W.any (fun e => e.name == fn && !e.isDir
          && hasSuffixB e.name (strBytes ".json") && e.content.isSome)) = true
    ∧ (SendPendingReports (strBytes "https://c4w.example") (strBytes "k4w") dirC4W oC4W 20).1
        = dirC4W.filter (fun e =>
            !((((SendPendingReports (strBytes "https://c4w.example") (strBytes "k4w") dirC4W oC4W 20).2.filter
              (fun p => p.2 && validDeleteName p.1)).map Prod.fst).contains e.name))) :=
  ⟨⟨by decide, by decide, by decide⟩,
    C4_drain_order_amended (strBytes "https://c4w.example") (strBytes "k4w") dirC4W oC4W
      (by decide) (by decide) (by decide)⟩

/-- Demo reports for the C10 scenarios. -/
def repC10 : Report := ⟨strBytes "dev-3", strBytes "retention", strBytes "2026-03-01T00:00:00Z",
  strBytes "2026-03-01T00:01:00Z", strBytes "success", 60000, 1, 2, 3, strBytes "snap9", []⟩

def repC10b : Report := ⟨strBytes "dev-3", strBytes "backup", strBytes "2026-03-02T00:00:00Z",
  strBytes "2026-03-02T00:01:00Z", strBytes "failure", 61000, 0, 0, 0, [], strBytes "oops"⟩

/-- C10 counterexample: the only spool entry is loaded and its send returns
HTTP 200 (the log records true), yet the file the report was loaded from is
not deleted, because its name "9-x-y..json" fails the delete-handle
validation — so a successful send does not always delete the file the sent
report was loaded from. -/
theorem C10_sent_file_kept_counterexample :
    SendPendingReports (strBytes "https://c10.example") (strBytes "k10")
        [⟨strBytes "9-x-y..json", false, 40, some repC10⟩] (fun _ => true) 20
      = ([⟨strBytes "9-x-y..json", false, 40, some repC10⟩],
         [(strBytes "9-x-y..json", true)]) := by
  decide

/-- Spool directory for the C10 witness: one parseable entry and one
unreadable entry. -/
def dirC10W : List DirEntry :=
  [⟨strBytes "5-a-b.json", false, 10, some repC10b⟩,
   ⟨strBytes "6-bad.json", false, 11, none⟩]

/-- Witness for C10 (amended) at a concrete two-entry spool with every send
succeeding. -/
theorem C10_skip_and_align_amended_witness :
    (strBytes "https://c10w.example" ≠ [] ∧ strBytes "k10w" ≠ []
      ∧ (dirC10W.map DirEntry.name).Nodup)
    ∧ ((LoadPendingReports dirC10W 20).1.length = (LoadPendingReports dirC10W 20).2.length
    ∧ ((LoadPendingReports dirC10W 20).1.zip (LoadPendingReports dirC10W 20).2).all
        (fun p => readSpool dirC10W p.2 == some p.1) = true
    ∧ (dirC10W.filter (fun e => e.content.isNone)).all
        (fun e => (SendPendingReports (strBytes "https://c10w.example") (strBytes "k10w") dirC10W (fun _ => true) 20).1.contains e) = true
    ∧ (dirC10W.filter (fun e => !((SendPendingReports (strBytes "https://c10w.example") (strBytes "k10w") dirC10W (fun _ => true) 20).1.contains e))).all
        (fun e => validDeleteName e.name && e.content.isSome
          && ((SendPendingReports (strBytes "https://c10w.example") (strBytes "k10w") dirC10W (fun _ => true) 20).2.contains (e.name, true))) = true
    ∧ (dirC10W.filter (fun e => validDeleteName e.name
          && ((SendPendingReports (strBytes "https://c10w.example") (strBytes "k10w") dirC10W (fun _ => true) 20).2.contains (e.name, true)))).all
        (fun e => !((SendPendingReports (strBytes "https://c10w.example") (strBytes "k10w") dirC10W (fun _ => true) 20).1.contains e)) = true) :=
  ⟨⟨by decide, by decide, by decide⟩,
    C10_skip_and_align_amended (strBytes "https://c10w.example") (strBytes "k10w") dirC10W
      (fun _ => true) 20 (by decide) (by decide) (by decide)⟩
